import Mathlib

/-!
# Verification of the ESOREFLEX_Automation batch-orchestration core

A shallow embedding of the two Python modules
`src/automation/sphere_batch_processor.py` and `src/automation/automate.py`,
together with theorems settling the frozen claims about the artifact
locator, the result relocator, the engine invoker, the batch controller and
the two command-line entry points.

Modelling conventions:
* File and directory names are Lean `String`s; a path below the engine's
  product root is the list of its name components (`List String`).
* The engine's output tree is the listing that `Path.rglob("*")` would
  produce: one `Node` per descendant entry, carrying its relative path, its
  kind (file or directory) and, for files, the byte content.
* The flat destination directory is a partial map from file name to file
  content (`Dir`); `shutil.copy2` / `shutil.move` onto a path become
  `dirWrite`, which creates or replaces the entry of that name.
* Wall-clock timestamps (`datetime.now().strftime(...)`) and I/O errors
  raised by `shutil` are external, so they enter the model as oracles
  indexed by the loop iteration (`ts : Nat → String`, `ioFail : Nat → Bool`).
* The external engine process is an oracle `EngineBehavior`: it can fail to
  launch, raise during streaming or waiting, or terminate with output lines
  and an exit code.
-/

namespace ESOREFLEX

/-! ## String helpers

Python's `in` on strings, `fnmatch` against the pattern `*.fits`, and
`pathlib.PurePath.stem` / `.suffix` / `.name`, re-expressed over `List Char`
so that every predicate is executable and kernel-decidable. -/

/-- Whether `needle` occurs contiguously inside `haystack` (Python `needle in haystack`). -/
def isInfixList (needle : List Char) : List Char → Bool
  | [] => needle.isEmpty
  | c :: t => needle.isPrefixOf (c :: t) || isInfixList needle t

/-- Python's substring test `needle in haystack` on strings. -/
def isSubstr (needle haystack : String) : Bool :=
  isInfixList needle.toList haystack.toList

/-- The glob pattern `*.fits` applied to an entry name. -/
def endsWithDotFits (name : String) : Bool :=
  ".fits".toList.isSuffixOf name.toList

/-- Python `pathlib.PurePath(p).name`: the part of `p` after the last slash. -/
def baseName (p : String) : String :=
  String.mk ((p.toList.reverse.takeWhile (fun c => c != '/')).reverse)

/-- The index of the last `'.'` in a character list, if any. -/
def lastDotIndex (cs : List Char) : Option Nat :=
  ((List.range cs.length).filter (fun i => cs.getD i ' ' == '.')).getLast?

/-- Python `pathlib.PurePath(name).stem`: everything before the last dot, provided
that dot is neither the first nor the last character; otherwise the whole
name. -/
def nameStem (name : String) : String :=
  let cs := name.toList
  match lastDotIndex cs with
  | some i => if 0 < i ∧ i < cs.length - 1 then String.mk (cs.take i) else name
  | none => name

/-- Python `pathlib.PurePath(name).suffix`: the last dot and what follows it,
provided that dot is neither the first nor the last character; otherwise
the empty string. -/
def nameSuffix (name : String) : String :=
  let cs := name.toList
  match lastDotIndex cs with
  | some i => if 0 < i ∧ i < cs.length - 1 then String.mk (cs.drop i) else ""
  | none => ""

/-! ## The engine's output tree -/

/-- Kind of a directory entry. -/
inductive NodeType where
  | file : NodeType
  | dir : NodeType
deriving DecidableEq, Repr

/-- One entry of the engine-owned output tree, as `rglob("*")` from the
product root would yield it: its path as the list of name components
relative to the root, its kind, and (for files) its content. -/
structure Node where
  path : List String
  typ : NodeType
  content : String
deriving DecidableEq, Repr

/-- The entry's own name (`Path.name`): the last path component. -/
def Node.name (n : Node) : String := n.path.getLastD ""

/-- The entry's path rendered as text, components joined by slashes. -/
def Node.pathString (n : Node) : String := String.intercalate "/" n.path

/-- Python `Path.is_dir()`. -/
def Node.isDir (n : Node) : Bool :=
  match n.typ with
  | NodeType.dir => true
  | NodeType.file => false

/-- Whether `q` lies strictly below `p`: what `p.rglob(...)` can reach from a
directory `p` (strict descendants only). -/
def strictPrefixOf (p q : List String) : Bool :=
  p.isPrefixOf q && decide (p.length < q.length)

/-! ## Artifact Locator (`find_output_products`, sphere_batch_processor.py
lines 147-169) -/

/-- Python `product_dir.rglob("*.fits")` over the listing `tree`: every entry
strictly below `d` whose name matches `*.fits`. -/
def fitsUnder (d : Node) (tree : List Node) : List Node :=
  tree.filter (fun f => endsWithDotFits f.name && strictPrefixOf d.path f.path)

/-- The Artifact Locator `find_output_products`: if the product root does not exist the result is
empty; otherwise, for every directory of the tree whose name contains the
input stem, collect all `*.fits` entries below it, in traversal order and
with repetitions (the code appends, it does not deduplicate). -/
def find_output_products (input_stem : String) (rootExists : Bool)
    (tree : List Node) : List Node :=
  if rootExists then
    tree.flatMap (fun d =>
      if d.isDir && isSubstr input_stem d.name then fitsUnder d tree else [])
  else []

/-- The characterization of what the locator actually returns, phrased as
the amended claim words it: `f` is returned exactly when the root exists,
`f` is an entry of the tree whose name matches `*.fits`, and `f` lies
strictly below some directory of the tree whose own name contains the input
stem as a substring. -/
def matchedByLocator (input_stem : String) (tree : List Node) (f : Node) : Prop :=
  f ∈ tree ∧ endsWithDotFits f.name = true ∧
    ∃ d, d ∈ tree ∧ d.isDir = true ∧ isSubstr input_stem d.name = true ∧
      strictPrefixOf d.path f.path = true

/-- The set the original claim says the locator returns: the files of the
tree whose rendered path contains the input stem as a substring. -/
def claimedByStemInPath (input_stem : String) (f : Node) : Prop :=
  f.typ = NodeType.file ∧ isSubstr input_stem f.pathString = true

/-! ## Destination directory and run ledger -/

/-- The flat destination directory: a partial map from file name to file
content. `shutil.copy2`/`shutil.move` onto a name create or replace that
entry. -/
abbrev Dir := String → Option String

/-- Writing a file into a flat directory (create or silently replace). -/
def dirWrite (d : Dir) (name content : String) : Dir :=
  fun m => if m = name then some content else d m

/-- Ledger messages the embedded fragments emit (the log lines of the code,
with their distinguishing content). -/
inductive LogMsg where
  | noProductsFound (inputName : String) : LogMsg
  | movedProduct (productName : String) : LogMsg
  | moveProductsFailed : LogMsg
  | launchReflexFailed : LogMsg
  | reflexSucceeded (inputName : String) : LogMsg
  | reflexFailedCode (inputName : String) : LogMsg
  | pipelineCompletedMarker (line : String) : LogMsg
deriving DecidableEq, Repr

/-! ## Result Relocator (`move_products_to_reduced_dir`,
sphere_batch_processor.py lines 171-195) -/

/-- The collision name the code builds: `f"{stem}_{timestamp}{suffix}"`. -/
def decoratedName (productName ts : String) : String :=
  nameStem productName ++ "_" ++ ts ++ nameSuffix productName

/-- The destination name one loop iteration chooses: the product's own name,
or the timestamp-decorated name when that name already exists. -/
def relocDestName (d : Dir) (ts productName : String) : String :=
  if (d productName).isSome then decoratedName productName ts else productName

/-- The `for product in products` loop. `ts i` is what
`datetime.datetime.now().strftime("%Y%m%d_%H%M%S")` returns at iteration
`i`; `ioFail i = true` means `shutil.copy2` raises there, which aborts the
loop and returns `False` (the destination keeps the copies already made). -/
def moveProductsLoop (ts : Nat → String) (ioFail : Nat → Bool) :
    List Node → Nat → Dir → Bool × Dir × List LogMsg
  | [], _, d => (true, d, [])
  | p :: rest, i, d =>
    if ioFail i then (false, d, [LogMsg.moveProductsFailed])
    else
      let d' := dirWrite d (relocDestName d (ts i) p.name) p.content
      let r := moveProductsLoop ts ioFail rest (i + 1) d'
      (r.1, r.2.1, LogMsg.movedProduct p.name :: r.2.2)

/-- The Result Relocator `move_products_to_reduced_dir`: an empty product list is reported as a
failure of its own kind ("no products found", a warning) before any copying
is attempted; otherwise the copy loop runs. -/
def move_products_to_reduced_dir (products : List Node) (inputName : String)
    (ts : Nat → String) (ioFail : Nat → Bool) (d : Dir) :
    Bool × Dir × List LogMsg :=
  if products.isEmpty then (false, d, [LogMsg.noProductsFound inputName])
  else moveProductsLoop ts ioFail products 0 d

/-- Steps 3-4 of `process_single_file` on the state the claims speak about:
locate the products in the engine's output tree, relocate them, and return
(outcome, output tree afterwards, destination afterwards). The output tree
is returned unchanged because `move_products_to_reduced_dir` only reads the
located files (`shutil.copy2`) and never writes into or deletes from the
tree. -/
def locate_and_relocate (input_stem inputName : String) (rootExists : Bool)
    (tree : List Node) (ts : Nat → String) (ioFail : Nat → Bool) (d : Dir) :
    Bool × List Node × Dir :=
  let products := find_output_products input_stem rootExists tree
  let r := move_products_to_reduced_dir products inputName ts ioFail d
  (r.1, tree, r.2.1)

/-! ## Engine Invoker (`launch_reflex_with_gui_automation`,
sphere_batch_processor.py lines 99-145) -/

/-- What the external engine process does on one invocation, as the
orchestrator can observe it. The three non-`exits` cases are the exceptions
the `try` block can see: `Popen` failing, an error while streaming the
child's merged output to the per-input log, and an error while waiting. -/
inductive EngineBehavior where
  | launchFail : EngineBehavior
  | streamFail (written : List String) : EngineBehavior
  | waitFail (lines : List String) : EngineBehavior
  | exits (lines : List String) (exitCode : Int) : EngineBehavior
deriving DecidableEq, Repr

/-- The behaviours in which an exception reaches the `except` handler. -/
def EngineBehavior.raisesException : EngineBehavior → Bool
  | EngineBehavior.launchFail => true
  | EngineBehavior.streamFail _ => true
  | EngineBehavior.waitFail _ => true
  | EngineBehavior.exits _ _ => false

/-- The completion-marker test applied to each streamed line:
`"Dataset has been reduced" in line or "reduced and saved" in line`. -/
def completionMarker (line : String) : Bool :=
  isSubstr "Dataset has been reduced" line || isSubstr "reduced and saved" line

/-- The informational log entries the marker scan produces. -/
def markerLogs (lines : List String) : List LogMsg :=
  (lines.filter completionMarker).map LogMsg.pipelineCompletedMarker

/-- The Engine Invoker `launch_reflex_with_gui_automation`: stream the child's output (logging
a marker line when one appears), block until the child terminates, and
return `True` exactly when the exit status is `0`; any exception along the
way is caught and yields `False`. -/
def launch_reflex_with_gui_automation (inputName : String)
    (b : EngineBehavior) : Bool × List LogMsg :=
  match b with
  | EngineBehavior.launchFail => (false, [LogMsg.launchReflexFailed])
  | EngineBehavior.streamFail written =>
      (false, markerLogs written ++ [LogMsg.launchReflexFailed])
  | EngineBehavior.waitFail lines =>
      (false, markerLogs lines ++ [LogMsg.launchReflexFailed])
  | EngineBehavior.exits lines exitCode =>
      if exitCode = 0 then
        (true, markerLogs lines ++ [LogMsg.reflexSucceeded inputName])
      else
        (false, markerLogs lines ++ [LogMsg.reflexFailedCode inputName])

/-! ## Batch Controller (`main`, sphere_batch_processor.py lines 251-292) -/

/-- The aggregate outcome of one batch run: process exit code, the tally,
and the inputs for which `process_single_file` was called, in order. -/
structure BatchResult where
  exitCode : Nat
  total : Nat
  succeeded : Nat
  failed : Nat
  attempted : List String
deriving DecidableEq, Repr

/-- The `for fits_file in fits_files` loop: every file is handed to
`process_single_file` (modelled by the oracle `proc`), and the two counters
are incremented from its Boolean outcome. Returns (succeeded, failed,
attempted inputs in order). -/
def batchLoop (proc : String → Bool) : List String → Nat × Nat × List String
  | [] => (0, 0, [])
  | f :: rest =>
    let r := batchLoop proc rest
    if proc f then (r.1 + 1, r.2.1, f :: r.2.2)
    else (r.1, r.2.1 + 1, f :: r.2.2)

/-- The Batch Controller `main` of sphere_batch_processor.py: an empty scan returns exit code 0
at once ("No FITS files found" is only a warning); otherwise the loop runs
over every file and the exit code is 0 exactly when no item failed. -/
def sphere_main (files : List String) (proc : String → Bool) : BatchResult :=
  if files.isEmpty then ⟨0, 0, 0, 0, []⟩
  else
    let r := batchLoop proc files
    ⟨if r.2.1 = 0 then 0 else 1, files.length, r.1, r.2.1, r.2.2⟩

/-! ## The single-item tool (`automate.py`) -/

/-- The `for f in PIPELINE_OUTPUT_DIR.glob("*.fits")` loop of
`move_outputs`: each top-level entry whose name matches `*.fits` and
contains the input stem is `shutil.move`d into the destination (removed
from the pipeline-output directory, written — replacing any same-named
destination file — into the destination). Returns (remaining
pipeline-output listing, destination, number moved). -/
def moveOutputsLoop (stem : String) :
    List (String × String) → Dir → List (String × String) × Dir × Nat
  | [], final => ([], final, 0)
  | e :: rest, final =>
    if endsWithDotFits e.1 && isSubstr stem e.1 then
      let r := moveOutputsLoop stem rest (dirWrite final e.1 e.2)
      (r.1, r.2.1, r.2.2 + 1)
    else
      let r := moveOutputsLoop stem rest final
      (e :: r.1, r.2.1, r.2.2)

/-- The relocator `move_outputs` of automate.py: derives the stem of the input file and
moves every matching top-level `*.fits` entry out of the pipeline-output
directory into the final reduced directory. -/
def move_outputs (input_fits_file : String) (pipe : List (String × String))
    (final : Dir) : List (String × String) × Dir × Nat :=
  moveOutputsLoop (nameStem (baseName input_fits_file)) pipe final

/-- The entry point `main` of automate.py: with any argument count other than exactly one
input path (`len(sys.argv) != 2`, counting the program name) the process
exits with status 1 and the engine is never invoked; otherwise
`run_pipeline` is called on that single path. Returns (exit status, the
input the pipeline was invoked on, if any). -/
def automate_main (argv : List String) : Nat × Option String :=
  if argv.length ≠ 2 then (1, none)
  else (0, some (argv.getD 1 ""))

/-! ## Concrete scenarios used by counterexamples and witnesses -/

/-- A product file sitting directly under the product root: its path
contains the stem `"A"`, but no directory name does. -/
def rootLevelFile : Node := ⟨["A_out.fits"], NodeType.file, "x"⟩

/-- A located artifact named `x.fits` with fresh content. -/
def sampleProduct : Node := ⟨["r", "x.fits"], NodeType.file, "new"⟩

/-- A destination that already holds `x.fits` and also holds a file whose
name coincides with the timestamp-decorated collision name `x_T.fits`. -/
def clashDest : Dir :=
  fun m => if m = "x.fits" then some "old"
    else if m = "x_T.fits" then some "orig" else none

/-- A destination holding one unrelated file, used to witness preservation. -/
def keepDest : Dir := fun m => if m = "keep.txt" then some "k" else none

/-- An output tree in which a directory whose name contains the stem `"A"`
is nested inside another directory whose name also contains `"A"`, with one
product file at the bottom. -/
def nestedTree : List Node :=
  [⟨["A_tpl"], NodeType.dir, ""⟩,
   ⟨["A_tpl", "A_sub"], NodeType.dir, ""⟩,
   ⟨["A_tpl", "A_sub", "out.fits"], NodeType.file, "c"⟩]

/-! ## Theorems -/

theorem mem_find_output_products (input_stem : String) (rootExists : Bool)
    (tree : List Node) (f : Node) :
    f ∈ find_output_products input_stem rootExists tree ↔
      rootExists = true ∧ f ∈ tree ∧ endsWithDotFits f.name = true ∧
        ∃ d, d ∈ tree ∧ d.isDir = true ∧ isSubstr input_stem d.name = true ∧
          strictPrefixOf d.path f.path = true := by
  unfold find_output_products fitsUnder
  cases rootExists
  · simp
  · simp only [if_true, List.mem_flatMap, List.mem_filter, Bool.and_eq_true, true_and]
    constructor
    · rintro ⟨d, hd, hmem⟩
      split at hmem
      next hc =>
        rw [List.mem_filter] at hmem
        obtain ⟨hf, hp⟩ := hmem
        rw [Bool.and_eq_true] at hp
        exact ⟨hf, hp.1, d, hd, hc.1, hc.2, hp.2⟩
      next => simp at hmem
    · rintro ⟨hf, h1, d, hd, h3, h4, h2⟩
      refine ⟨d, hd, ?_⟩
      split
      next => exact List.mem_filter.mpr ⟨hf, by rw [Bool.and_eq_true]; exact ⟨h1, h2⟩⟩
      next hc => exact absurd ⟨h3, h4⟩ hc

/-- Claim C1, amended: for every state of the output tree, the Artifact
Locator returns exactly the `*.fits`-named entries lying strictly below
some directory whose directory name contains the stem as a substring (and
nothing when the product root does not exist); it does not return every
file whose path contains the stem. -/
theorem find_output_products_exact_set (input_stem : String) (rootExists : Bool)
    (tree : List Node) (f : Node) :
    f ∈ find_output_products input_stem rootExists tree ↔
      rootExists = true ∧ matchedByLocator input_stem tree f :=
  mem_find_output_products input_stem rootExists tree f

/-- Claim C1, counterexample: a file whose path contains the stem `"A"` but
which lies under no stem-matching directory is omitted by the locator, so
the locator does not return the set of files whose path contains the stem. -/
theorem find_output_products_misses_stem_in_path :
    claimedByStemInPath "A" rootLevelFile
    ∧ rootLevelFile ∈ [rootLevelFile]
    ∧ find_output_products "A" true [rootLevelFile] = [] :=
  ⟨⟨rfl, by decide⟩, by decide, by decide⟩

theorem dirWrite_ne (d : Dir) (name content m : String) (h : m ≠ name) :
    dirWrite d name content m = d m := by
  unfold dirWrite
  exact if_neg h

theorem moveProductsLoop_preserves (ts : Nat → String) (ioFail : Nat → Bool)
    (n : String) :
    ∀ (products : List Node) (i : Nat) (d : Dir),
      (d n).isSome = true →
      (∀ p ∈ products, ∀ j, n ≠ decoratedName p.name (ts j)) →
      (moveProductsLoop ts ioFail products i d).2.1 n = d n := by
  intro products
  induction products with
  | nil => intro i d _ _; rfl
  | cons p rest ih =>
    intro i d hn hdec
    by_cases hf : ioFail i
    · simp [moveProductsLoop, hf]
    · have hne : n ≠ relocDestName d (ts i) p.name := by
        unfold relocDestName
        by_cases hex : (d p.name).isSome = true
        · rw [if_pos hex]
          exact hdec p (List.mem_cons_self p rest) i
        · rw [if_neg hex]
          intro hcontra
          rw [hcontra] at hn
          exact hex hn
      have hd' : dirWrite d (relocDestName d (ts i) p.name) p.content n = d n :=
        dirWrite_ne d _ p.content n hne
      have hrest := ih (i + 1)
        (dirWrite d (relocDestName d (ts i) p.name) p.content)
        (by rw [hd']; exact hn)
        (fun q hq j => hdec q (List.mem_cons_of_mem p hq) j)
      simp only [moveProductsLoop, if_neg hf]
      rw [hrest, hd']

/-- Claim C2, amended: relocation never overwrites a pre-existing
destination file at an incoming artifact's own name — the artifact is
diverted to the timestamp-decorated name `stem_TIMESTAMP.suffix` — and
every destination file whose name is not such a decorated name of an
incoming artifact is left exactly as it was; but a pre-existing file that
already bears a colliding decorated name is overwritten, because the code
does not re-check the decorated name before copying. -/
theorem move_products_preserves_undecorated_names (products : List Node)
    (inputName : String) (ts : Nat → String) (ioFail : Nat → Bool) (d : Dir)
    (n : String) (hn : (d n).isSome = true)
    (hdec : ∀ p ∈ products, ∀ i, n ≠ decoratedName p.name (ts i)) :
    (move_products_to_reduced_dir products inputName ts ioFail d).2.1 n = d n := by
  unfold move_products_to_reduced_dir
  by_cases he : products.isEmpty
  · rw [if_pos he]
  · rw [if_neg he]
    exact moveProductsLoop_preserves ts ioFail n products 0 d hn hdec

theorem move_products_preserves_undecorated_names_witness :
    (move_products_to_reduced_dir [sampleProduct] "in.fits" (fun _ => "T")
        (fun _ => false) keepDest).2.1 "keep.txt" = keepDest "keep.txt" :=
  move_products_preserves_undecorated_names [sampleProduct] "in.fits"
    (fun _ => "T") (fun _ => false) keepDest "keep.txt" (by decide)
    (by
      intro p hp i
      rw [List.mem_singleton] at hp
      subst hp
      show "keep.txt" ≠ decoratedName sampleProduct.name "T"
      decide)

/-- Claim C2, counterexample: with destination files `x.fits` and
`x_T.fits` already present and an incoming artifact `x.fits` relocated at
timestamp `T`, the collision diversion writes to `x_T.fits` and replaces
the pre-existing file of that name — an existing destination file is
overwritten. -/
theorem move_products_overwrites_at_decorated_name :
    clashDest "x_T.fits" = some "orig"
    ∧ (move_products_to_reduced_dir [sampleProduct] "x.fits" (fun _ => "T")
        (fun _ => false) clashDest).2.1 "x_T.fits" = some "new"
    ∧ ("orig" : String) ≠ "new" := by
  refine ⟨by decide, by decide, by decide⟩

/-- Claim C3, counterexample: the single-item tool's `move_outputs`
relocates with `shutil.move`: after relocation the matched artifact no
longer exists in the pipeline-output tree (it was deleted, not copied),
even though it was present before and was moved successfully. -/
theorem move_outputs_deletes_from_output_tree :
    ("A_out.fits", "data") ∈ [(("A_out.fits" : String), ("data" : String))]
    ∧ (move_outputs "raw/A.fits" [("A_out.fits", "data")] (fun _ => none)).1 = []
    ∧ (move_outputs "raw/A.fits" [("A_out.fits", "data")] (fun _ => none)).2.2 = 1 := by
  refine ⟨by decide, by decide, by decide⟩

/-- Claim C3, amended: the batch processor's locate-and-relocate step never
deletes or mutates the engine's output tree — it only copies, so the tree
afterwards is exactly the tree before and every located artifact is still
present unchanged at its original path; the single-item tool's
`move_outputs`, by contrast, removes the artifacts it relocates. -/
theorem sphere_relocation_preserves_output_tree (input_stem inputName : String)
    (rootExists : Bool) (tree : List Node) (ts : Nat → String)
    (ioFail : Nat → Bool) (d : Dir) :
    (locate_and_relocate input_stem inputName rootExists tree ts ioFail d).2.1 = tree
    ∧ ∀ f ∈ find_output_products input_stem rootExists tree,
        f ∈ (locate_and_relocate input_stem inputName rootExists tree ts ioFail d).2.1 := by
  refine ⟨rfl, fun f hf => ?_⟩
  have h := (mem_find_output_products input_stem rootExists tree f).mp hf
  exact h.2.1

theorem batchLoop_spec (proc : String → Bool) (files : List String) :
    (batchLoop proc files).2.2 = files
    ∧ ((batchLoop proc files).2.1 = 0 ↔ ∀ f ∈ files, proc f = true) := by
  induction files with
  | nil => exact ⟨rfl, by simp [batchLoop]⟩
  | cons f rest ih =>
    by_cases h : proc f
    · refine ⟨?_, ?_⟩
      · simp [batchLoop, h, ih.1]
      · simp [batchLoop, h, ih.2]
    · refine ⟨?_, ?_⟩
      · simp [batchLoop, h, ih.1]
      · simp [batchLoop, h]

/-- Claim C4: the Batch Controller calls `process_single_file` on every
scanned input, in order, whatever the outcomes of the other items are; and
the process exit status is 0 exactly when every item succeeded (so it is
nonzero exactly when at least one item failed). -/
theorem sphere_main_attempts_all_and_exit_status (files : List String)
    (proc : String → Bool) :
    (sphere_main files proc).attempted = files
    ∧ ((sphere_main files proc).exitCode = 0 ↔ ∀ f ∈ files, proc f = true) := by
  unfold sphere_main
  by_cases he : files.isEmpty
  · rw [if_pos he]
    rw [List.isEmpty_iff] at he
    subst he
    exact ⟨rfl, by simp⟩
  · rw [if_neg he]
    obtain ⟨h1, h2⟩ := batchLoop_spec proc files
    refine ⟨h1, ?_⟩
    by_cases hz : (batchLoop proc files).2.1 = 0
    · simpa [hz] using h2.mp hz
    · have : ¬ ∀ f ∈ files, proc f = true := fun hall => hz (h2.mpr hall)
      simp [hz, this]

/-- Claim C5: the invoker's reported outcome is a function of the child's
exit status alone — `True` exactly when the engine terminated with status
0 — and the streamed lines (in particular the completion markers scanned in
them) never change the outcome: the same exit code with different output
lines yields the same outcome, and every launch failure or exception yields
`False`. -/
theorem launch_reflex_outcome_determined_by_exit_status (inputName : String)
    (b : EngineBehavior) (other : List String) :
    ((launch_reflex_with_gui_automation inputName b).1 = true ↔
      ∃ lines, b = EngineBehavior.exits lines 0)
    ∧ ∀ (lines : List String) (exitCode : Int),
        (launch_reflex_with_gui_automation inputName
            (EngineBehavior.exits lines exitCode)).1
          = (launch_reflex_with_gui_automation inputName
              (EngineBehavior.exits other exitCode)).1 := by
  constructor
  · cases b with
    | launchFail => simp [launch_reflex_with_gui_automation]
    | streamFail written => simp [launch_reflex_with_gui_automation]
    | waitFail lines => simp [launch_reflex_with_gui_automation]
    | exits lines exitCode =>
      by_cases h : exitCode = 0
      · subst h
        refine ⟨fun _ => ⟨lines, rfl⟩, fun _ => ?_⟩
        simp [launch_reflex_with_gui_automation]
      · simp [launch_reflex_with_gui_automation, h]
  · intro lines exitCode
    by_cases h : exitCode = 0 <;> simp [launch_reflex_with_gui_automation, h]

/-- Claim C6: on an empty scan (no input files) the batch run exits with
status 0 and the tally is total 0, succeeded 0, failed 0; the condition is
not an error. -/
theorem sphere_main_empty_input_clean_success (proc : String → Bool) :
    sphere_main [] proc = ⟨0, 0, 0, 0, []⟩ := rfl

/-- Claim C7: the Result Relocator called with an empty artifact set fails
for that input and records the dedicated "no products found" ledger entry
— the destination untouched and no copy attempted — a message distinct
from the "failed to move products" entry that a copy error records. -/
theorem move_products_empty_reported_distinctly (inputName : String)
    (ts : Nat → String) (ioFail : Nat → Bool) (d : Dir) :
    move_products_to_reduced_dir [] inputName ts ioFail d
        = (false, d, [LogMsg.noProductsFound inputName])
    ∧ (∀ s : String, LogMsg.noProductsFound s ≠ LogMsg.moveProductsFailed)
    ∧ ∀ (p : Node) (rest : List Node),
        move_products_to_reduced_dir (p :: rest) inputName ts (fun _ => true) d
          = (false, d, [LogMsg.moveProductsFailed]) :=
  ⟨rfl, fun _ h => LogMsg.noConfusion h, fun _ _ => rfl⟩

/-- Claim C8: the single-item entry point exits with status 1 — without
invoking the engine — whenever the command line does not hold exactly one
input file path, and with exactly one argument it runs the pipeline on that
single item. -/
theorem automate_main_arg_validation (argv : List String) :
    (argv.length ≠ 2 → automate_main argv = (1, none))
    ∧ ∀ prog file : String, automate_main [prog, file] = (0, some file) := by
  refine ⟨fun h => ?_, fun prog file => rfl⟩
  unfold automate_main
  rw [if_pos h]

/-- Claim C9: the Engine Invoker is total over every behaviour of the child
process: whenever an exception is raised — at launch, while streaming the
output to the per-input log, or while waiting — the invoker catches it and
returns the value `False` rather than propagating it. -/
theorem launch_reflex_never_propagates_exception (inputName : String)
    (b : EngineBehavior) (h : b.raisesException = true) :
    (launch_reflex_with_gui_automation inputName b).1 = false := by
  cases b with
  | launchFail => rfl
  | streamFail written => rfl
  | waitFail lines => rfl
  | exits lines exitCode => exact Bool.noConfusion h

theorem launch_reflex_never_propagates_exception_witness :
    (launch_reflex_with_gui_automation "A.fits" EngineBehavior.launchFail).1 = false :=
  launch_reflex_never_propagates_exception "A.fits" EngineBehavior.launchFail rfl

/-- Claim C10: with a stem-matching directory nested inside another
stem-matching directory, the locator returns the same product file twice,
and the relocator therefore copies it twice — the first copy under its own
name, the second under the timestamp-decorated name. -/
theorem nested_matching_dirs_duplicate_and_double_copy :
    (find_output_products "A" true nestedTree).count
        ⟨["A_tpl", "A_sub", "out.fits"], NodeType.file, "c"⟩ = 2
    ∧ (move_products_to_reduced_dir (find_output_products "A" true nestedTree)
        "A.fits" (fun _ => "T") (fun _ => false) (fun _ => none)).2.1 "out.fits"
        = some "c"
    ∧ (move_products_to_reduced_dir (find_output_products "A" true nestedTree)
        "A.fits" (fun _ => "T") (fun _ => false) (fun _ => none)).2.1 "out_T.fits"
        = some "c" := by
  refine ⟨by decide, by decide, by decide⟩

end ESOREFLEX
